import Mathlib

/-!
Verification development for the multi-tenant ingestion control plane
(tracefox-ai/tf-app).  The definitions below are a shallow embedding of the
TypeScript sources:

* `src/packages/api/src/controllers/ingestionAuth.ts` — token registry
  operations (`createIngestionToken`, `revokeIngestionToken`,
  `rotateIngestionToken`, `resolveIngestionToken`);
* `src/packages/api/src/utils/sharding.ts` — `findNextAvailableShard`;
* `src/packages/api/src/controllers/clickhouseTenantProvisioning.ts` —
  `provisionTenantClickhouse` (modelled as the sequence of DDL statements it
  issues);
* the OpAMP controller (`handleOpampMessage`) and the collector-config
  synthesizer (`buildShardCollectorConfig`).

MongoDB collections are modelled as lists kept in insertion order; `findOne`
becomes `List.find?`, `findOneAndUpdate` updates the first match, and
`create` appends.  Wall-clock values are passed in as `Nat` parameters, and
the random token / fresh document id produced by the runtime are passed in
as explicit arguments.  JavaScript truthiness tests on optional strings
(`if (!x)`) are modelled by `optTruthy`, which is false on `none` and on the
empty string.
-/

namespace TfApp

/-- Bounded universal quantification over a list is decidable; registered
as an instance so that concrete witnesses can be checked by `decide`. -/
instance decidableListBAll (p : α → Prop) [DecidablePred p] (l : List α) :
    Decidable (∀ x ∈ l, p x) :=
  List.decidableBAll p l

/-- JavaScript truthiness of an optional string: `undefined`/`null` and the
empty string are falsy, every other string is truthy. -/
def optTruthy : Option String → Bool
  | none => false
  | some s => !(s == "")

/- ### Token codec (`src/packages/api/src/utils/ingestionTokens.ts`,
bundled into the corpus as the second segment of
`src/packages/api/src/controllers/teamMembership.ts`).
The `hashIngestionToken` there is
`crypto.createHash('sha256').update(token).digest('hex')` — the SHA-256
digest of the token's UTF-8 bytes in lowercase hex — so SHA-256
(FIPS 180-4) is implemented below over `Nat` with explicit 32-bit
truncation.  The random `generateIngestionToken` is modelled by passing
the generated plaintext as an explicit argument to the operations that
call it. -/

/-- Truncation to a 32-bit word. -/
def w32 (n : Nat) : Nat := n % 4294967296

/-- Right rotation of a 32-bit word by `n`. -/
def rotr32 (n x : Nat) : Nat := w32 ((x >>> n) ||| (x <<< (32 - n)))

/-- The SHA-256 round constants (fractional parts of the cube roots of
the first 64 primes). -/
def sha256K : List Nat :=
  [1116352408, 1899447441, 3049323471, 3921009573,
   961987163, 1508970993, 2453635748, 2870763221,
   3624381080, 310598401, 607225278, 1426881987,
   1925078388, 2162078206, 2614888103, 3248222580,
   3835390401, 4022224774, 264347078, 604807628,
   770255983, 1249150122, 1555081692, 1996064986,
   2554220882, 2821834349, 2952996808, 3210313671,
   3336571891, 3584528711, 113926993, 338241895,
   666307205, 773529912, 1294757372, 1396182291,
   1695183700, 1986661051, 2177026350, 2456956037,
   2730485921, 2820302411, 3259730800, 3345764771,
   3516065817, 3600352804, 4094571909, 275423344,
   430227734, 506948616, 659060556, 883997877,
   958139571, 1322822218, 1537002063, 1747873779,
   1955562222, 2024104815, 2227730452, 2361852424,
   2428436474, 2756734187, 3204031479, 3329325298]

/-- The SHA-256 initial hash value. -/
def sha256H0 : List Nat :=
  [1779033703, 3144134277, 1013904242, 2773480762,
   1359893119, 2600822924, 528734635, 1541459225]

/-- UTF-8 encoding of one Unicode code point as bytes. -/
def utf8EncodeCharNat (c : Nat) : List Nat :=
  if c < 128 then [c]
  else if c < 2048 then [192 ||| (c >>> 6), 128 ||| (c &&& 63)]
  else if c < 65536 then
    [224 ||| (c >>> 12), 128 ||| ((c >>> 6) &&& 63), 128 ||| (c &&& 63)]
  else
    [240 ||| (c >>> 18), 128 ||| ((c >>> 12) &&& 63),
     128 ||| ((c >>> 6) &&& 63), 128 ||| (c &&& 63)]

/-- The UTF-8 bytes of a string (what Node's `hash.update(token)` feeds
into the digest). -/
def utf8Bytes (s : String) : List Nat :=
  (s.toList.map fun c => utf8EncodeCharNat c.toNat).flatten

/-- SHA-256 message padding: `128`, zeros to 56 mod 64 bytes, then the
64-bit big-endian bit length. -/
def sha256Pad (msg : List Nat) : List Nat :=
  let bitLen := msg.length * 8
  let padZeros := (119 - msg.length % 64) % 64
  msg ++ [128] ++ List.replicate padZeros 0 ++
    [(bitLen >>> 56) &&& 255, (bitLen >>> 48) &&& 255, (bitLen >>> 40) &&& 255,
     (bitLen >>> 32) &&& 255, (bitLen >>> 24) &&& 255, (bitLen >>> 16) &&& 255,
     (bitLen >>> 8) &&& 255, bitLen &&& 255]

/-- Group bytes into big-endian 32-bit words. -/
def bytesToWords : List Nat → List Nat
  | b0 :: b1 :: b2 :: b3 :: rest =>
      ((b0 <<< 24) ||| (b1 <<< 16) ||| (b2 <<< 8) ||| b3) :: bytesToWords rest
  | _ => []

/-- Message-schedule extension: the accumulator holds the words produced
so far, most recent first, so `w[i-2]`, `w[i-7]`, `w[i-15]`, `w[i-16]`
are at positions 1, 6, 14, 15. -/
def scheduleRounds : Nat → List Nat → List Nat
  | 0, acc => acc.reverse
  | k + 1, acc =>
      let g := fun j => acc.getD j 0
      let s0 := rotr32 7 (g 14) ^^^ rotr32 18 (g 14) ^^^ ((g 14) >>> 3)
      let s1 := rotr32 17 (g 1) ^^^ rotr32 19 (g 1) ^^^ ((g 1) >>> 10)
      scheduleRounds k (w32 (g 15 + s0 + g 6 + s1) :: acc)

/-- The 64-word message schedule of one block. -/
def sha256Schedule (ws16 : List Nat) : List Nat := scheduleRounds 48 ws16.reverse

/-- One SHA-256 compression round on the eight-word working state. -/
def compressRound (st : List Nat) (kw : Nat × Nat) : List Nat :=
  match st with
  | [a, b, c, d, e, f, g, h] =>
      let bigS1 := rotr32 6 e ^^^ rotr32 11 e ^^^ rotr32 25 e
      let ch := (e &&& f) ^^^ ((4294967295 ^^^ e) &&& g)
      let temp1 := w32 (h + bigS1 + ch + kw.1 + kw.2)
      let bigS0 := rotr32 2 a ^^^ rotr32 13 a ^^^ rotr32 22 a
      let maj := (a &&& b) ^^^ (a &&& c) ^^^ (b &&& c)
      let temp2 := w32 (bigS0 + maj)
      [w32 (temp1 + temp2), a, b, c, w32 (d + temp1), e, f, g]
  | other => other

/-- Compress one 16-word block into the hash state. -/
def sha256Compress (h ws16 : List Nat) : List Nat :=
  let st := (sha256K.zip (sha256Schedule ws16)).foldl compressRound h
  match h, st with
  | [h0, h1, h2, h3, h4, h5, h6, h7], [a, b, c, d, e, f, g, hh] =>
      [w32 (h0 + a), w32 (h1 + b), w32 (h2 + c), w32 (h3 + d),
       w32 (h4 + e), w32 (h5 + f), w32 (h6 + g), w32 (h7 + hh)]
  | _, _ => h

/-- Fold the compression over the padded message, 16 words per block. -/
def sha256Blocks (h : List Nat) : List Nat → List Nat
  | w0 :: w1 :: w2 :: w3 :: w4 :: w5 :: w6 :: w7 ::
      w8 :: w9 :: w10 :: w11 :: w12 :: w13 :: w14 :: w15 :: rest =>
      sha256Blocks (sha256Compress h
        [w0, w1, w2, w3, w4, w5, w6, w7, w8, w9, w10, w11, w12, w13, w14, w15]) rest
  | _ => h

/-- Lowercase hex digit. -/
def hexDigitChar (n : Nat) : Char :=
  if n < 10 then Char.ofNat (48 + n) else Char.ofNat (87 + n)

/-- Eight lowercase hex digits of a 32-bit word, most significant first. -/
def wordToHex (w : Nat) : List Char :=
  [hexDigitChar ((w >>> 28) &&& 15), hexDigitChar ((w >>> 24) &&& 15),
   hexDigitChar ((w >>> 20) &&& 15), hexDigitChar ((w >>> 16) &&& 15),
   hexDigitChar ((w >>> 12) &&& 15), hexDigitChar ((w >>> 8) &&& 15),
   hexDigitChar ((w >>> 4) &&& 15), hexDigitChar (w &&& 15)]

/-- SHA-256 of a string's UTF-8 bytes, as lowercase hex.  Checked against
the FIPS 180-4 test vectors (empty string and `abc`). -/
def sha256Hex (s : String) : String :=
  ((sha256Blocks sha256H0
      (bytesToWords (sha256Pad (utf8Bytes s)))).map wordToHex).flatten.asString

/-- `hashIngestionToken(token)` from the token codec:
`crypto.createHash('sha256').update(token).digest('hex')`. -/
def hashIngestionToken (token : String) : String :=
  sha256Hex token

/-- `tokenPrefix(token, chars = 12)` from the token codec:
`token.slice(0, chars)`.  Tokens are ASCII (`hdx_ingest_` plus base64url
characters), where JavaScript's code-unit slice and the code-point take
below coincide.  Named `tokenPrefixOf` here. -/
def tokenPrefixOf (token : String) : String :=
  (token.toList.take 12).asString

/-- Status enum of `IngestionTokenSchema` (`status` ∈ {`active`, `revoked`}). -/
inductive TokenStatus where
  | active
  | revoked
deriving DecidableEq

/-- One document of the `IngestionToken` Mongo collection
(`IIngestionToken` in the model file).  The `tokenPrefixVal` field embeds
the source's display-prefix field. -/
structure IngestionToken where
  id : String
  team : String
  tokenHash : String
  tokenPrefixVal : String
  status : TokenStatus
  assignedShard : Option String
  description : Option String
  revokedAt : Option Nat
  createdAt : Nat
deriving DecidableEq

/-- One document of the `Connection` collection (`IConnection`): the
password field has `select: false`, hence optional. -/
structure Connection where
  team : String
  name : String
  host : String
  username : String
  password : Option String
  isManaged : Bool
deriving DecidableEq

/-- The durable state the token registry and config synthesizer read:
both Mongo collections, in insertion order. -/
structure Db where
  tokens : List IngestionToken
  connections : List Connection
deriving DecidableEq

/-- Errors thrown by the registry operations: `createIngestionToken` throws
when no shard is free, and the unique index on `tokenHash`
(`unique: true` in the schema) rejects duplicate hashes. -/
inductive ApiError where
  | noAvailableShards
  | duplicateTokenHash
deriving DecidableEq

/- ### Shard allocator (`src/packages/api/src/utils/sharding.ts`) -/

/-- `shard-${i}` as built by the allocator's loop. -/
def shardName (i : Nat) : String :=
  "shard-" ++ toString i

/-- A shard is occupied when some active token (after the optional
`excludeTeamId` filter) has `assignedShard` equal to it; tokens with a null
`assignedShard` are skipped, exactly as the `teamsPerShard` grouping in the
source skips them.  The source's per-shard team set is nonempty iff such a
token exists. -/
def shardOccupied (excludeTeamId : Option String) (tokens : List IngestionToken)
    (shard : String) : Bool :=
  tokens.any fun t =>
    t.status == TokenStatus.active
      && (match excludeTeamId with
          | some e => !(t.team == e)
          | none => true)
      && t.assignedShard == some shard

/-- The `for (let i = 0; i < shardCount; i++)` loop of
`findNextAvailableShard`, as structural recursion on the number of
remaining indices: starting at index `i` with `cnt` indices left, return
the first non-occupied index. -/
def findShardLoop (occ : Nat → Bool) : Nat → Nat → Option Nat
  | _, 0 => none
  | i, cnt + 1 => if occ i then findShardLoop occ (i + 1) cnt else some i

/-- `findNextAvailableShard(shardCount, excludeTeamId)`: scan shards
`shard-0 … shard-(N-1)` and return the first with no active team; `none`
models the `null` return when all shards are full. -/
def findNextAvailableShard (shardCount : Nat) (excludeTeamId : Option String)
    (tokens : List IngestionToken) : Option String :=
  (findShardLoop (fun i => shardOccupied excludeTeamId tokens (shardName i)) 0
      shardCount).map shardName

/- ### Token registry (`src/packages/api/src/controllers/ingestionAuth.ts`) -/

/-- The `findOne({ team, status: 'active' })` predicate used for shard
inheritance at create time. -/
def isActiveTeamToken (teamId : String) (t : IngestionToken) : Bool :=
  t.team == teamId && t.status == TokenStatus.active

/-- Arguments of `createIngestionToken` (its `params` object). -/
structure CreateTokenParams where
  teamId : String
  description : Option String
  assignedShard : Option String

/-- The shard-selection logic at the top of `createIngestionToken`:
explicit param if truthy, else the shard of an existing active token of the
team if truthy, else the allocator — throwing the source's
`'No available ingestion shards found for new team.'` error when the
allocator returns null. -/
def chooseShardAtCreate (shardCount : Nat) (db : Db) (p : CreateTokenParams) :
    Except ApiError (Option String) :=
  if optTruthy p.assignedShard then Except.ok p.assignedShard
  else
    let inherited :=
      (db.tokens.find? (isActiveTeamToken p.teamId)).bind
        (fun t => t.assignedShard)
    if optTruthy inherited then Except.ok inherited
    else
      match findNextAvailableShard shardCount none db.tokens with
      | some s => Except.ok (some s)
      | none => Except.error ApiError.noAvailableShards

/-- The document `IngestionToken.create` inserts. -/
def newTokenDoc (token freshId : String) (now : Nat)
    (chosenShard : Option String) (p : CreateTokenParams) : IngestionToken :=
  { id := freshId
    team := p.teamId
    tokenHash := hashIngestionToken token
    tokenPrefixVal := tokenPrefixOf token
    status := TokenStatus.active
    assignedShard := chosenShard
    description := p.description
    revokedAt := none
    createdAt := now }

/-- `createIngestionToken`: pick the shard via `chooseShardAtCreate`, then
insert the new document.  The generated plaintext `token` and the fresh
document id are passed in explicitly; the unique index on `tokenHash`
(`unique: true` in the schema) makes the insert fail on a duplicate
hash. -/
def createIngestionToken (shardCount : Nat) (token freshId : String)
    (now : Nat) (db : Db) (p : CreateTokenParams) :
    Except ApiError (String × IngestionToken × Db) :=
  match chooseShardAtCreate shardCount db p with
  | Except.error e => Except.error e
  | Except.ok chosenShard =>
      if db.tokens.any (fun t => t.tokenHash == hashIngestionToken token) then
        Except.error ApiError.duplicateTokenHash
      else
        let doc := newTokenDoc token freshId now chosenShard p
        Except.ok (token, doc, { db with tokens := db.tokens ++ [doc] })

/-- Update the first list element satisfying `p` (Mongo
`findOneAndUpdate` touches a single document). -/
def updateFirst (p : α → Bool) (f : α → α) : List α → List α
  | [] => []
  | x :: xs => if p x then f x :: xs else x :: updateFirst p f xs

/-- The `findOneAndUpdate` filter of `revokeIngestionToken`: match on
`_id` and `team` only — no status predicate. -/
def revokeMatches (teamId tokenId : String) (t : IngestionToken) : Bool :=
  t.id == tokenId && t.team == teamId

/-- The `$set` document of `revokeIngestionToken`: status becomes
`revoked` and `revokedAt` is overwritten with the current time. -/
def setRevokedAt (now : Nat) (t : IngestionToken) : IngestionToken :=
  { t with status := TokenStatus.revoked, revokedAt := some now }

/-- `revokeIngestionToken`: `findOneAndUpdate({_id, team},
{status: 'revoked', revokedAt: now}, {new: true})` — returns the updated
document (or `none` when no document of that team has that id) together
with the updated collection state. -/
def revokeIngestionToken (now : Nat) (db : Db) (teamId tokenId : String) :
    Option IngestionToken × Db :=
  match db.tokens.find? (revokeMatches teamId tokenId) with
  | none => (none, db)
  | some t =>
      (some (setRevokedAt now t),
        { db with tokens :=
            updateFirst (revokeMatches teamId tokenId) (setRevokedAt now) db.tokens })

/-- `rotateIngestionToken`: call `revokeIngestionToken` — discarding its
result — then `createIngestionToken` with only the team id. -/
def rotateIngestionToken (shardCount : Nat) (token freshId : String)
    (now : Nat) (db : Db) (teamId tokenId : String) :
    Except ApiError (String × IngestionToken × Db) :=
  let db1 := (revokeIngestionToken now db teamId tokenId).2
  createIngestionToken shardCount token freshId now db1
    { teamId := teamId, description := none, assignedShard := none }

/-- The object `resolveIngestionToken` returns for an active match. -/
structure ResolvedToken where
  tokenId : String
  tokenHash : String
  teamId : String
  assignedShard : Option String
deriving DecidableEq

/-- `resolveIngestionToken`: hash the plaintext, `findOne({tokenHash,
status: 'active'})`, and project out ids and shard; `none` when no active
document carries the hash. -/
def resolveIngestionToken (db : Db) (token : String) : Option ResolvedToken :=
  let tokenHash := hashIngestionToken token
  (db.tokens.find? fun t =>
      t.tokenHash == tokenHash && t.status == TokenStatus.active).map
    fun d =>
      { tokenId := d.id
        tokenHash := tokenHash
        teamId := d.team
        assignedShard := d.assignedShard }

/-- The `DELETE /ingestion-tokens/:id` route handler
(`src/packages/api/src/routers/api/me.ts`): 404 when
`revokeIngestionToken` returns null, 200 otherwise. -/
def deleteIngestionTokenRoute (now : Nat) (db : Db) (teamId tokenId : String) :
    Nat × Db :=
  let r := revokeIngestionToken now db teamId tokenId
  match r.1 with
  | none => (404, r.2)
  | some _ => (200, r.2)

/- ### Collector-config synthesizer (`buildShardCollectorConfig`) -/

/-- Boolean strict lexicographic order on character lists by code point —
the order JavaScript's default `Array.prototype.sort` comparator induces on
the team-id strings. -/
def lexLtB : List Char → List Char → Bool
  | [], [] => false
  | [], _ :: _ => true
  | _ :: _, [] => false
  | a :: as, b :: bs =>
      if a.val < b.val then true
      else if b.val < a.val then false
      else lexLtB as bs

/-- Boolean string comparison by code points (JavaScript string `<`). -/
def strLtB (a b : String) : Bool := lexLtB a.toList b.toList

/-- Least element of a string list under `strLtB`.  The source computes
`Array.from(new Set(teamIds)).sort()[0]`; deduplication does not change the
minimum, so the selected team id is exactly the least one. -/
def stringMin : List String → Option String :=
  List.foldl
    (fun acc s =>
      match acc with
      | none => some s
      | some t => some (if strLtB s t then s else t))
    none

/-- The retry block of the `clickhouse` exporter. -/
structure RetryOnFailure where
  enabled : Bool
  initialInterval : String
  maxInterval : String
  maxElapsedTime : String
deriving DecidableEq

/-- The `clickhouse` exporter entry of the synthesized config. -/
structure ClickhouseExporter where
  endpoint : String
  database : String
  username : String
  password : String
  ttl : String
  timeout : String
  retryOnFailure : RetryOnFailure
deriving DecidableEq

/-- One pipeline of `service.pipelines`. -/
structure Pipeline where
  receivers : List String
  processors : List String
  exporters : List String
deriving DecidableEq

/-- The synthesized collector configuration (`CollectorConfig` in the
source), restricted to the fields the controller actually emits: the
health-check extension, the `otlp/hyperdx` receiver endpoints, the `nop`
exporter, the optional `clickhouse` exporter and the named pipelines. -/
structure CollectorConfig where
  healthCheckEndpoint : String
  otlpGrpcEndpoint : String
  otlpHttpEndpoint : String
  includeMetadata : Bool
  corsAllowedOrigins : List String
  corsAllowedHeaders : List String
  nopExporter : Bool
  clickhouse : Option ClickhouseExporter
  serviceExtensions : List String
  pipelines : List (String × Pipeline)
deriving DecidableEq

/-- The nop configuration emitted both when no team is assigned to the
shard and when the selected team has no managed connection password (the
two literals in the source are identical). -/
def nopCollectorConfig : CollectorConfig :=
  { healthCheckEndpoint := ":13133"
    otlpGrpcEndpoint := "0.0.0.0:4317"
    otlpHttpEndpoint := "0.0.0.0:4318"
    includeMetadata := true
    corsAllowedOrigins := ["*"]
    corsAllowedHeaders := ["*"]
    nopExporter := true
    clickhouse := none
    serviceExtensions := ["health_check"]
    pipelines :=
      [("logs/nop",
          { receivers := ["otlp/hyperdx"], processors := ["batch"],
            exporters := ["nop"] }),
        ("traces/nop",
          { receivers := ["otlp/hyperdx"], processors := ["batch"],
            exporters := ["nop"] }),
        ("metrics/nop",
          { receivers := ["otlp/hyperdx"], processors := ["batch"],
            exporters := ["nop"] })] }

/-- The tenant-routed configuration for team `teamId` writing with
`password`: the `clickhouse` exporter targets `tenant_<teamId>` and each
signal's pipeline exports to it. -/
def tenantCollectorConfig (teamId password : String) : CollectorConfig :=
  { healthCheckEndpoint := ":13133"
    otlpGrpcEndpoint := "0.0.0.0:4317"
    otlpHttpEndpoint := "0.0.0.0:4318"
    includeMetadata := true
    corsAllowedOrigins := ["*"]
    corsAllowedHeaders := ["*"]
    nopExporter := true
    clickhouse := some
      { endpoint := "$\x7benv:CLICKHOUSE_ENDPOINT\x7d"
        database := "tenant_" ++ teamId
        username := "tenant_" ++ teamId
        password := password
        ttl := "720h"
        timeout := "5s"
        retryOnFailure :=
          { enabled := true, initialInterval := "5s", maxInterval := "30s",
            maxElapsedTime := "300s" } }
    serviceExtensions := ["health_check"]
    pipelines :=
      [("logs",
          { receivers := ["otlp/hyperdx"],
            processors := ["memory_limiter", "batch"],
            exporters := ["clickhouse"] }),
        ("traces",
          { receivers := ["otlp/hyperdx"],
            processors := ["memory_limiter", "batch"],
            exporters := ["clickhouse"] }),
        ("metrics",
          { receivers := ["otlp/hyperdx"],
            processors := ["memory_limiter", "batch"],
            exporters := ["clickhouse"] })] }

/-- The team the synthesizer selects for a shard: lexicographically
smallest team id among active tokens assigned to the shard (`teamIds[0]`
after sort), or `none` when the shard is unassigned. -/
def selectedTeamOnShard (db : Db) (shardId : String) : Option String :=
  stringMin
    ((db.tokens.filter fun t =>
        t.status == TokenStatus.active && t.assignedShard == some shardId).map
      (fun t => t.team))

/-- `Connection.findOne({ team, isManaged: true }).select('+password')`
followed by the `conn?.password` projection. -/
def managedConnectionPassword (db : Db) (teamId : String) : Option String :=
  (db.connections.find? fun c => c.team == teamId && c.isManaged).bind
    (fun c => c.password)

/-- `buildShardCollectorConfig(shardId)`: select the team bound to the
shard (nop config when there is none), load its managed connection's
password (nop config when missing or empty, per `!conn?.password`), and
otherwise emit the tenant-routed config. -/
def buildShardCollectorConfig (db : Db) (shardId : String) : CollectorConfig :=
  match selectedTeamOnShard db shardId with
  | none => nopCollectorConfig
  | some teamId =>
      match managedConnectionPassword db teamId with
      | none => nopCollectorConfig
      | some password =>
          if password == "" then nopCollectorConfig
          else tenantCollectorConfig teamId password

/-- The OTel signal a pipeline name belongs to: the segment before the
first `/` (so `logs/nop` and `logs` are both logs pipelines). -/
def pipelineSignal (name : String) : String :=
  (name.toList.takeWhile fun c => !(c == '/')).asString

/-- The synthesized config has at least one pipeline of the given signal. -/
def hasPipelineForSignal (cfg : CollectorConfig) (signal : String) : Bool :=
  cfg.pipelines.any fun p => pipelineSignal p.1 == signal

/- ### Agent registry and OpAMP endpoint -/

/-- Modelled from the spec (§3, §4.6): the agent-registry service
(`agentService` — its source file is not in the corpus) keeps, per
`instance_uid`, the last-seen identifying attributes and capabilities.  We
record the identifying attributes as key/optional-string-value pairs
(`KeyValue` with an optional `stringValue`) and model of the capabilities
bitfield only the `AcceptsRemoteConfig` flag, the one the endpoint tests. -/
structure AgentState where
  instanceUid : String
  identifyingAttributes : Option (List (String × Option String))
  acceptsRemoteConfig : Bool
deriving DecidableEq

/-- A decoded `AgentToServer` message, restricted to the fields the
endpoint reads: `instance_uid`, the optional `agent_description.
identifying_attributes`, and the capability flag. -/
structure AgentToServer where
  instanceUid : String
  identifyingAttributes : Option (List (String × Option String))
  acceptsRemoteConfig : Bool
deriving DecidableEq

/-- The in-memory agent registry: `instance_uid → agent state`, in
first-seen order. -/
abbrev AgentRegistry := List (String × AgentState)

/-- Modelled from the spec (§4.6 Agent Registry): `process(agent_to_server)`
merges the incoming fields into the stored entry, creating it if absent,
and returns the merged entry.  A field absent from the message leaves the
stored value in place. -/
def processAgentStatus (reg : AgentRegistry) (msg : AgentToServer) :
    AgentState × AgentRegistry :=
  match (reg.find? fun e => e.1 == msg.instanceUid) with
  | none =>
      let fresh : AgentState :=
        { instanceUid := msg.instanceUid
          identifyingAttributes := msg.identifyingAttributes
          acceptsRemoteConfig := msg.acceptsRemoteConfig }
      (fresh, reg ++ [(msg.instanceUid, fresh)])
  | some e =>
      let merged : AgentState :=
        { instanceUid := e.2.instanceUid
          identifyingAttributes :=
            match msg.identifyingAttributes with
            | some a => some a
            | none => e.2.identifyingAttributes
          acceptsRemoteConfig := msg.acceptsRemoteConfig }
      (merged,
        updateFirst (fun x => x.1 == msg.instanceUid) (fun _ => (msg.instanceUid, merged)) reg)

/-- `getStringAttr(attrs, key)`: first attribute with the key, then
`value?.stringValue ?? null`. -/
def getStringAttr (attrs : Option (List (String × Option String)))
    (key : String) : Option String :=
  match attrs with
  | none => none
  | some l => (l.find? fun a => a.1 == key).bind (fun a => a.2)

/-- The inbound HTTP request of the OpAMP endpoint: its content type and
the outcome of `decodeAgentToServer` on the body.  The protobuf codec
itself is modelled from the spec (§4.8): the body either decodes to an
`AgentToServer` message or decoding fails and throws. -/
structure OpampRequest where
  contentType : String
  decoded : Except Unit AgentToServer

/-- What the endpoint sends back: the HTTP status and, on success, the
optional remote config (the JSON serialization and its SHA-256 framing are
not modelled; the carried configuration value is). -/
structure OpampResponse where
  status : Nat
  remoteConfig : Option CollectorConfig
deriving DecidableEq

/-- `OpampController.handleOpampMessage`: reject non-protobuf content
types with 415; decode (a decode failure throws and is caught by the
handler's catch-all, which answers 500); process the agent status —
mutating the registry — and, when the agent accepts remote config, read
`hdx.shard_id` from its identifying attributes: a missing (or empty,
per `if (!shardId)`) value throws, again answered with 500 after the
registry mutation; otherwise synthesize and attach the shard's config. -/
def handleOpampMessage (db : Db) (reg : AgentRegistry) (req : OpampRequest) :
    OpampResponse × AgentRegistry :=
  if !(req.contentType == "application/x-protobuf") then
    ({ status := 415, remoteConfig := none }, reg)
  else
    match req.decoded with
    | Except.error _ => ({ status := 500, remoteConfig := none }, reg)
    | Except.ok msg =>
        let pr := processAgentStatus reg msg
        let agent := pr.1
        let reg1 := pr.2
        if agent.acceptsRemoteConfig then
          match getStringAttr agent.identifyingAttributes "hdx.shard_id" with
          | none => ({ status := 500, remoteConfig := none }, reg1)
          | some shardId =>
              if shardId == "" then
                ({ status := 500, remoteConfig := none }, reg1)
              else
                ({ status := 200,
                   remoteConfig := some (buildShardCollectorConfig db shardId) },
                  reg1)
        else
          ({ status := 200, remoteConfig := none }, reg1)

/- ### Tenant storage provisioner (`provisionTenantClickhouse`) -/

/-- One admin DDL statement issued by the provisioner, abstracted to its
kind, the object names it mentions, and whether the create is guarded by
`IF NOT EXISTS`. -/
inductive ChStmt where
  | createDatabase (db : String)
  | createUser (user : String)
  | grant (db user : String)
  | createTable (db table : String) (ifNotExists : Bool)
deriving DecidableEq

/-- `provisionTenantClickhouse(teamId)`: `none` when
`CLICKHOUSE_TENANT_PROVISIONING_ENABLED` is false; otherwise the derived
database and user names together with the DDL statements the function
executes, in order.  The generated 48-hex-char password is not modelled.
The source creates exactly three tables — `otel_logs`, `otel_traces` and
`hyperdx_sessions` ("minimal set" per its comment). -/
def provisionTenantClickhouse (provisioningEnabled : Bool) (teamId : String) :
    Option (String × String × List ChStmt) :=
  if !provisioningEnabled then none
  else
    let database := "tenant_" ++ teamId
    let username := "tenant_" ++ teamId
    some (database, username,
      [ChStmt.createDatabase database,
        ChStmt.createUser username,
        ChStmt.grant database username,
        ChStmt.createTable database "otel_logs" true,
        ChStmt.createTable database "otel_traces" true,
        ChStmt.createTable database "hyperdx_sessions" true])

/-- Whether a statement creates the given table. -/
def stmtCreatesTable (table : String) : ChStmt → Bool
  | ChStmt.createTable _ t _ => t == table
  | _ => false

/- ### Concrete sample values used by counterexamples and witnesses -/

/-- The projection of a token record that `resolveIngestionToken` returns
for it when it is the active match. -/
def resolvedOf (rec : IngestionToken) : ResolvedToken :=
  { tokenId := rec.id
    tokenHash := rec.tokenHash
    teamId := rec.team
    assignedShard := rec.assignedShard }

/-- Empty database: no tokens, no connections. -/
def emptyDb : Db := { tokens := [], connections := [] }

/-- Sample token record: team `t1`, active, assigned to `shard-1`. -/
def tokA : IngestionToken :=
  { id := "A"
    team := "t1"
    tokenHash := hashIngestionToken "tok-a"
    tokenPrefixVal := tokenPrefixOf "tok-a"
    status := TokenStatus.active
    assignedShard := some "shard-1"
    description := none
    revokedAt := none
    createdAt := 0 }

/-- `tokA` already revoked. -/
def tokR : IngestionToken :=
  { tokA with status := TokenStatus.revoked, revokedAt := some 1 }

/-- Managed connection of team `t1` with a readable password. -/
def connA : Connection :=
  { team := "t1"
    name := "Tenant ClickHouse"
    host := "h"
    username := "tenant_t1"
    password := some "pw"
    isManaged := true }

/-- Database holding the active `tokA` and the managed connection. -/
def dbA : Db := { tokens := [tokA], connections := [connA] }

/-- Database holding only the revoked `tokR`. -/
def dbR : Db := { tokens := [tokR], connections := [] }

/-- Create parameters with neither description nor explicit shard, for
team `t1` (the shape `rotateIngestionToken` passes). -/
def pNoShard : CreateTokenParams :=
  { teamId := "t1", description := none, assignedShard := none }

/-- The record a create of token `tok-b` with fresh id `B` at time 5
against the empty database inserts. -/
def recC7 : IngestionToken := newTokenDoc "tok-b" "B" 5 (some "shard-0") pNoShard

/-- The database state after that create. -/
def dbC7 : Db := { tokens := [recC7], connections := [] }

/-- An `AgentToServer` message that accepts remote config but whose
identifying attributes lack `hdx.shard_id`. -/
def msgNoShard : AgentToServer :=
  { instanceUid := "u1"
    identifyingAttributes := some [("service.name", some "col")]
    acceptsRemoteConfig := true }

/-- A well-typed protobuf request carrying `msgNoShard`. -/
def reqNoShard : OpampRequest :=
  { contentType := "application/x-protobuf", decoded := Except.ok msgNoShard }

/-- A JSON request (wrong content type). -/
def reqJson : OpampRequest :=
  { contentType := "application/json", decoded := Except.error () }

/-- A protobuf request whose body fails to decode. -/
def reqBadBody : OpampRequest :=
  { contentType := "application/x-protobuf", decoded := Except.error () }

/- ### Helper lemmas -/

/-- The implemented digest matches the FIPS 180-4 test vector for `abc`
(and the code's own contract of a 64-hex-char lowercase digest). -/
theorem sha256Hex_abc :
    sha256Hex "abc"
      = "ba7816bf8f01cfea414140de5dae2223b00361a396177a9cb410ff61f20015ad" := by
  decide

theorem findShardLoop_eq_some (occ : Nat → Bool) :
    ∀ (cnt i j : Nat), findShardLoop occ i cnt = some j →
      i ≤ j ∧ j < i + cnt ∧ occ j = false ∧ ∀ m, i ≤ m → m < j → occ m = true := by
  intro cnt
  induction cnt with
  | zero => intro i j h; simp [findShardLoop] at h
  | succ k ih =>
      intro i j h
      rw [findShardLoop] at h
      by_cases hi : occ i = true
      · rw [if_pos hi] at h
        obtain ⟨h1, h2, h3, h4⟩ := ih (i + 1) j h
        refine ⟨by omega, by omega, h3, ?_⟩
        intro m hm1 hm2
        rcases Nat.lt_or_ge m (i + 1) with hlt | hge
        · have hmi : m = i := by omega
          rwa [hmi]
        · exact h4 m hge hm2
      · rw [if_neg hi] at h
        have hfalse : occ i = false := by
          cases hocc : occ i
          · rfl
          · exact absurd hocc hi
        cases h
        exact ⟨Nat.le_refl i, by omega, hfalse, fun m hm1 hm2 => by omega⟩

theorem findShardLoop_eq_none (occ : Nat → Bool) :
    ∀ (cnt i : Nat), findShardLoop occ i cnt = none ↔
      ∀ m, i ≤ m → m < i + cnt → occ m = true := by
  intro cnt
  induction cnt with
  | zero =>
      intro i
      constructor
      · intro _ m h1 h2; omega
      · intro _; rfl
  | succ k ih =>
      intro i
      rw [findShardLoop]
      by_cases hi : occ i = true
      · rw [if_pos hi, ih (i + 1)]
        constructor
        · intro h m hm1 hm2
          rcases Nat.lt_or_ge m (i + 1) with hlt | hge
          · have hmi : m = i := by omega
            rwa [hmi]
          · exact h m hge (by omega)
        · intro h m hm1 hm2
          exact h m (by omega) (by omega)
      · rw [if_neg hi]
        constructor
        · intro h
          exact absurd h (Option.some_ne_none i)
        · intro h
          exact absurd (h i (Nat.le_refl i) (by omega)) hi

theorem find?_append_right {α} (p : α → Bool) (l1 l2 : List α)
    (h : ∀ x ∈ l1, ¬ p x = true) : (l1 ++ l2).find? p = l2.find? p := by
  induction l1 with
  | nil => rfl
  | cons a l ih =>
      have ha : ¬ p a = true := h a (List.mem_cons_self a l)
      rw [List.cons_append, List.find?_cons_of_neg _ ha]
      exact ih fun x hx => h x (List.mem_cons_of_mem a hx)

theorem updateFirst_spec {α} (p : α → Bool) (f : α → α) :
    ∀ l : List α,
      (l.find? p = none ∧ updateFirst p f l = l) ∨
      (∃ l1 x l2, l = l1 ++ x :: l2 ∧ (∀ y ∈ l1, ¬ p y = true) ∧ p x = true ∧
        l.find? p = some x ∧ updateFirst p f l = l1 ++ f x :: l2) := by
  intro l
  induction l with
  | nil => left; exact ⟨rfl, rfl⟩
  | cons a l ih =>
      by_cases ha : p a = true
      · right
        refine ⟨[], a, l, rfl, by simp, ha, ?_, ?_⟩
        · rw [List.find?_cons_of_pos _ ha]
        · simp [updateFirst, ha]
      · rcases ih with ⟨h1, h2⟩ | ⟨l1, x, l2, hl, hl1, hx, hf, hu⟩
        · left
          constructor
          · rw [List.find?_cons_of_neg _ ha, h1]
          · simp [updateFirst, ha, h2]
        · right
          refine ⟨a :: l1, x, l2, by rw [hl, List.cons_append], ?_, hx, ?_, ?_⟩
          · intro y hy
            rcases List.mem_cons.mp hy with rfl | hy2
            · exact ha
            · exact hl1 y hy2
          · rw [List.find?_cons_of_neg _ ha, hf]
          · simp only [updateFirst, List.cons_append]
            rw [if_neg ha, hu]

theorem stringMin_foldl_isSome (l : List String) : ∀ (a : String),
    (List.foldl
        (fun acc s =>
          match acc with
          | none => some s
          | some t => some (if strLtB s t then s else t))
        (some a) l).isSome = true := by
  induction l with
  | nil => intro a; rfl
  | cons x xs ih =>
      intro a
      simpa [List.foldl] using ih (if strLtB x a then x else a)

theorem stringMin_eq_none (l : List String) : stringMin l = none ↔ l = [] := by
  cases l with
  | nil => simp [stringMin]
  | cons x xs =>
      simp only [stringMin, List.foldl]
      constructor
      · intro h
        have := stringMin_foldl_isSome xs x
        rw [h] at this
        cases this
      · intro h
        cases h

theorem beq_false_of_ne {α} [BEq α] [LawfulBEq α] {a b : α} (h : ¬ a = b) :
    (a == b) = false := by
  cases hb : a == b
  · rfl
  · exact absurd (eq_of_beq hb) h

/-- When a database snapshot holds no active token of the team and no
token with the new plaintext's hash, a create without an explicit shard
goes through the allocator. -/
theorem create_after_no_active (shardCount : Nat) (token freshId : String)
    (now : Nat) (db1 : Db) (teamId s : String)
    (hnoact : db1.tokens.find? (isActiveTeamToken teamId) = none)
    (hany : db1.tokens.any
      (fun t => t.tokenHash == hashIngestionToken token) = false)
    (halloc : findNextAvailableShard shardCount none db1.tokens = some s) :
    createIngestionToken shardCount token freshId now db1
        { teamId := teamId, description := none, assignedShard := none }
      = Except.ok (token,
          newTokenDoc token freshId now (some s)
            { teamId := teamId, description := none, assignedShard := none },
          { db1 with tokens := db1.tokens ++
              [newTokenDoc token freshId now (some s)
                { teamId := teamId, description := none, assignedShard := none }] }) := by
  have hchoose : chooseShardAtCreate shardCount db1
      { teamId := teamId, description := none, assignedShard := none }
      = Except.ok (some s) := by
    rw [chooseShardAtCreate]
    simp [hnoact, optTruthy, halloc]
  simp [createIngestionToken, hchoose, hany]

/- ### Claim theorems -/

/-- Claim C5: for every shard count `N` and every snapshot of tokens, the
allocator returns `shard-i` for the smallest index `i < N` whose shard
carries no active token, and returns nothing exactly when every one of
`shard-0 … shard-(N-1)` is occupied (the `SHARDS_EXHAUSTED` case). -/
theorem claim_C5_shard_allocator (N : Nat) (tokens : List IngestionToken) :
    (∀ s, findNextAvailableShard N none tokens = some s →
      ∃ i, i < N ∧ s = shardName i
        ∧ shardOccupied none tokens (shardName i) = false
        ∧ ∀ j, j < i → shardOccupied none tokens (shardName j) = true)
    ∧ (findNextAvailableShard N none tokens = none ↔
        ∀ i, i < N → shardOccupied none tokens (shardName i) = true) := by
  constructor
  · intro s hs
    unfold findNextAvailableShard at hs
    cases hloop : findShardLoop
        (fun i => shardOccupied none tokens (shardName i)) 0 N with
    | none => rw [hloop] at hs; cases hs
    | some j =>
        rw [hloop] at hs
        obtain ⟨h1, h2, h3, h4⟩ := findShardLoop_eq_some _ N 0 j hloop
        simp only [Option.map_some'] at hs
        have hsj : s = shardName j := (Option.some.inj hs).symm
        exact ⟨j, by omega, hsj, h3, fun m hm => h4 m (Nat.zero_le m) hm⟩
  · unfold findNextAvailableShard
    rw [Option.map_eq_none']
    rw [findShardLoop_eq_none]
    constructor
    · intro h i hi
      exact h i (Nat.zero_le i) (by omega)
    · intro h m _ hm
      exact h m (by omega)

/-- Witness for C5 at a concrete snapshot: with two shards and one active
token on `shard-1`, the allocator picks `shard-0`, the least free index. -/
theorem claim_C5_shard_allocator_witness :
    ∃ i, i < 2 ∧ "shard-0" = shardName i
      ∧ shardOccupied none [tokA] (shardName i) = false
      ∧ ∀ j, j < i → shardOccupied none [tokA] (shardName j) = true :=
  (claim_C5_shard_allocator 2 [tokA]).1 "shard-0" (by decide)

/-- Claim C10: `revokeIngestionToken` matches on id and team only — a
token that exists under the team is updated to `revoked` with
`revokedAt = now` regardless of its current status, and the DELETE route
answers 200; the null (NOT_FOUND / 404) outcome happens exactly when no
token with that id exists under the team. -/
theorem claim_C10_revoke_any_status (now : Nat) (db : Db)
    (teamId tokenId : String) :
    ((∃ t ∈ db.tokens, revokeMatches teamId tokenId t = true) →
      ∃ u, (revokeIngestionToken now db teamId tokenId).1 = some u
        ∧ u.status = TokenStatus.revoked ∧ u.revokedAt = some now
        ∧ (deleteIngestionTokenRoute now db teamId tokenId).1 = 200)
    ∧ ((revokeIngestionToken now db teamId tokenId).1 = none ↔
        ∀ t ∈ db.tokens, ¬ revokeMatches teamId tokenId t = true) := by
  cases hfind : db.tokens.find? (revokeMatches teamId tokenId) with
  | none =>
      constructor
      · rintro ⟨t, ht, hp⟩
        exact absurd hp (List.find?_eq_none.mp hfind t ht)
      · constructor
        · intro _
          exact List.find?_eq_none.mp hfind
        · intro _
          simp [revokeIngestionToken, hfind]
  | some t =>
      constructor
      · intro _
        refine ⟨setRevokedAt now t, ?_, rfl, rfl, ?_⟩
        · simp [revokeIngestionToken, hfind]
        · simp [deleteIngestionTokenRoute, revokeIngestionToken, hfind]
      · constructor
        · intro h
          rw [revokeIngestionToken] at h
          simp [hfind] at h
        · intro h
          exact absurd (List.find?_some hfind)
            (h t (List.mem_of_find?_eq_some hfind))

/-- Witness for C10: revoking the already-revoked `tokR` still succeeds,
overwrites `revokedAt`, and the route answers 200. -/
theorem claim_C10_revoke_any_status_witness :
    ∃ u, (revokeIngestionToken 9 dbR "t1" "A").1 = some u
      ∧ u.status = TokenStatus.revoked ∧ u.revokedAt = some 9
      ∧ (deleteIngestionTokenRoute 9 dbR "t1" "A").1 = 200 :=
  (claim_C10_revoke_any_status 9 dbR "t1" "A").1 (by decide)

/-- Claim C1 (the code contradicts it): rotating a token id that does not
exist under the team does not produce NOT_FOUND — the revoke step returns
null (the NOT_FOUND condition), its result is discarded, and
`createIngestionToken` still runs, minting a brand-new active token. -/
theorem claim_C1_rotate_missing_token_still_creates :
    (revokeIngestionToken 5 emptyDb "t1" "missing").1 = none
    ∧ (rotateIngestionToken 1 "tok-b" "B" 5 emptyDb "t1" "missing").toOption.map
        (fun r => (r.2.2.tokens.length, r.2.1.status))
      = some (1, TokenStatus.active) := by decide

/-- Claim C2 (the code contradicts it): with provisioning enabled the
provisioner issues idempotent creates for `otel_logs`, `otel_traces` and
`hyperdx_sessions` in `tenant_<team_id>`, but no CREATE TABLE at all for
`otel_metrics_gauge`, `otel_metrics_sum` or `otel_metrics_histogram`. -/
theorem claim_C2_provisioner_missing_metric_tables :
    (provisionTenantClickhouse true "T1").map (fun r => r.1) = some "tenant_T1"
    ∧ (provisionTenantClickhouse true "T1").map
        (fun r => r.2.2.any (stmtCreatesTable "otel_logs")) = some true
    ∧ (provisionTenantClickhouse true "T1").map
        (fun r => r.2.2.any (stmtCreatesTable "otel_traces")) = some true
    ∧ (provisionTenantClickhouse true "T1").map
        (fun r => r.2.2.any (stmtCreatesTable "hyperdx_sessions")) = some true
    ∧ (provisionTenantClickhouse true "T1").map
        (fun r => r.2.2.any fun st =>
          stmtCreatesTable "otel_metrics_gauge" st
            || stmtCreatesTable "otel_metrics_sum" st
            || stmtCreatesTable "otel_metrics_histogram" st) = some false
    ∧ (provisionTenantClickhouse true "T1").map
        (fun r => r.2.2.all fun st =>
          match st with
          | ChStmt.createTable _ _ ifNotExists => ifNotExists
          | _ => true) = some true := by decide

/-- Claim C6: when the team already has an active token and (as invariant
I4 guarantees for reachable states) all its active tokens carry the same
non-empty `assignedShard` `s`, a create without an explicit shard argument
inherits `s`, and afterwards all active tokens of the team still share
`s`. -/
theorem claim_C6_create_inherits_shard (shardCount : Nat)
    (token freshId : String) (now : Nat) (db : Db) (teamId s : String)
    (d : Option String)
    (hs : ¬ s = "")
    (hall : ∀ t ∈ db.tokens, isActiveTeamToken teamId t = true →
      t.assignedShard = some s)
    (hex : ∃ t ∈ db.tokens, isActiveTeamToken teamId t = true)
    (hfresh : ∀ t ∈ db.tokens, ¬ t.tokenHash = hashIngestionToken token) :
    ∃ rec db2,
      createIngestionToken shardCount token freshId now db
          { teamId := teamId, description := d, assignedShard := none }
        = Except.ok (token, rec, db2)
      ∧ rec.assignedShard = some s
      ∧ ∀ t ∈ db2.tokens, isActiveTeamToken teamId t = true →
          t.assignedShard = some s := by
  obtain ⟨t0, ht0, hp0⟩ := hex
  cases hfind : db.tokens.find? (isActiveTeamToken teamId) with
  | none => exact absurd hp0 (List.find?_eq_none.mp hfind t0 ht0)
  | some t1 =>
      have hsh : t1.assignedShard = some s :=
        hall t1 (List.mem_of_find?_eq_some hfind) (List.find?_some hfind)
      have hbeq : (s == "") = false := by
        cases hb : s == ""
        · rfl
        · exact absurd (eq_of_beq hb) hs
      have hchoose : chooseShardAtCreate shardCount db
          { teamId := teamId, description := d, assignedShard := none }
          = Except.ok (some s) := by
        simp [chooseShardAtCreate, hfind, hsh, optTruthy, hbeq]
      have hany : db.tokens.any
          (fun t => t.tokenHash == hashIngestionToken token) = false := by
        rw [List.any_eq_false]
        intro t ht
        cases hb : t.tokenHash == hashIngestionToken token
        · exact Bool.false_ne_true
        · exact absurd (eq_of_beq hb) (hfresh t ht)
      have hcreate : createIngestionToken shardCount token freshId now db
            { teamId := teamId, description := d, assignedShard := none }
          = Except.ok (token,
              newTokenDoc token freshId now (some s)
                { teamId := teamId, description := d, assignedShard := none },
              { db with tokens := db.tokens ++
                  [newTokenDoc token freshId now (some s)
                    { teamId := teamId, description := d, assignedShard := none }] }) := by
        simp [createIngestionToken, hchoose, hany]
      refine ⟨_, _, hcreate, rfl, ?_⟩
      intro t ht hp
      rcases List.mem_append.mp ht with hin | hnew
      · exact hall t hin hp
      · rw [List.mem_singleton.mp hnew]
        rfl

/-- Witness for C6: against `dbA` (one active token of team `t1` on
`shard-1`), a create without explicit shard also lands on `shard-1` and
the team's active tokens still agree. -/
theorem claim_C6_create_inherits_shard_witness :
    ∃ rec db2,
      createIngestionToken 2 "tok-b2" "B2" 7 dbA pNoShard
        = Except.ok ("tok-b2", rec, db2)
      ∧ rec.assignedShard = some "shard-1"
      ∧ ∀ t ∈ db2.tokens, isActiveTeamToken "t1" t = true →
          t.assignedShard = some "shard-1" :=
  claim_C6_create_inherits_shard 2 "tok-b2" "B2" 7 dbA "t1" "shard-1" none
    (by decide) (by decide) (by decide) (by decide)

/-- Claim C7: if a create succeeds with plaintext `token` whose hash is
fresh in the registry, then resolving `token` against the post-create
state returns exactly the projection of the created record — in
particular the same `team_id` and `assigned_shard`. -/
theorem claim_C7_resolve_round_trip (shardCount : Nat)
    (token freshId : String) (now : Nat) (db : Db) (p : CreateTokenParams)
    (hfresh : ∀ t ∈ db.tokens, ¬ t.tokenHash = hashIngestionToken token) :
    ∀ tok rec db2,
      createIngestionToken shardCount token freshId now db p
        = Except.ok (tok, rec, db2) →
      resolveIngestionToken db2 token = some (resolvedOf rec)
      ∧ rec.team = p.teamId ∧ rec.status = TokenStatus.active := by
  intro tok rec db2 h
  rw [createIngestionToken] at h
  cases hchoose : chooseShardAtCreate shardCount db p with
  | error e => rw [hchoose] at h; cases h
  | ok chosenShard =>
      rw [hchoose] at h
      cases hany : db.tokens.any
          (fun t => t.tokenHash == hashIngestionToken token) with
      | true => rw [hany] at h; simp at h
      | false =>
          rw [hany] at h
          simp only [Bool.false_eq_true, if_false, Except.ok.injEq,
            Prod.mk.injEq] at h
          obtain ⟨htok, hrec, hdb2⟩ := h
          have hpred : ∀ t ∈ db.tokens,
              ¬ (t.tokenHash == hashIngestionToken token
                  && t.status == TokenStatus.active) = true := by
            intro t ht hcontra
            have h1 := (Bool.and_eq_true _ _).mp hcontra
            exact hfresh t ht (eq_of_beq h1.1)
          refine ⟨?_, ?_, ?_⟩
          · rw [← hdb2]
            rw [resolveIngestionToken]
            simp only
            rw [find?_append_right _ _ _ hpred]
            rw [← hrec]
            have hstat : (TokenStatus.active == TokenStatus.active) = true := rfl
            simp [newTokenDoc, resolvedOf, hstat]
          · rw [← hrec]; rfl
          · rw [← hrec]; rfl

/-- Witness for C7: the create of `tok-b` against the empty database
yields `recC7`, and resolving `tok-b` in the resulting state returns its
projection with the same team and shard. -/
theorem claim_C7_resolve_round_trip_witness :
    resolveIngestionToken dbC7 "tok-b" = some (resolvedOf recC7)
    ∧ recC7.team = "t1" ∧ recC7.status = TokenStatus.active :=
  claim_C7_resolve_round_trip 1 "tok-b" "B" 5 emptyDb pNoShard (by decide)
    "tok-b" recC7 dbC7 rfl

/-- Counterexample for C3: an agent accepting remote config whose
identifying attributes lack `hdx.shard_id` gets a 500, but the agent
registry is NOT left unchanged — `processAgentStatus` has already created
the agent's entry before the error is raised. -/
theorem claim_C3_registry_changes_counterexample :
    (handleOpampMessage emptyDb [] reqNoShard).1.status = 500
    ∧ ¬ (handleOpampMessage emptyDb [] reqNoShard).2 = ([] : AgentRegistry) := by
  decide

/-- Claim C3 as amended: on a protobuf request that decodes to a message
accepting remote config but lacking a truthy `hdx.shard_id`, the endpoint
responds 500 with no remote config — yet the agent registry has already
been updated by `processAgentStatus` (the entry is created or merged
before the error is thrown). -/
theorem claim_C3_opamp_missing_shard (db : Db) (reg : AgentRegistry)
    (req : OpampRequest) (msg : AgentToServer)
    (hct : req.contentType = "application/x-protobuf")
    (hdec : req.decoded = Except.ok msg)
    (hacc : (processAgentStatus reg msg).1.acceptsRemoteConfig = true)
    (hmiss : optTruthy (getStringAttr
        (processAgentStatus reg msg).1.identifyingAttributes
        "hdx.shard_id") = false) :
    handleOpampMessage db reg req
      = ({ status := 500, remoteConfig := none },
          (processAgentStatus reg msg).2) := by
  cases hattr : getStringAttr
      (processAgentStatus reg msg).1.identifyingAttributes "hdx.shard_id" with
  | none => simp [handleOpampMessage, hct, hdec, hacc, hattr]
  | some s =>
      rw [hattr] at hmiss
      have hempty : (s == "") = true := by
        cases hb : s == ""
        · rw [optTruthy, hb] at hmiss
          cases hmiss
        · rfl
      simp [handleOpampMessage, hct, hdec, hacc, hattr, eq_of_beq hempty]

/-- Witness for C3's amended theorem at the concrete request. -/
theorem claim_C3_opamp_missing_shard_witness :
    handleOpampMessage emptyDb [] reqNoShard
      = ({ status := 500, remoteConfig := none },
          (processAgentStatus [] msgNoShard).2) :=
  claim_C3_opamp_missing_shard emptyDb [] reqNoShard msgNoShard rfl rfl
    (by decide) (by decide)

/-- Counterexample for C4: a protobuf-typed request whose body fails to
decode is answered 500 (by the handler's catch-all), not 400. -/
theorem claim_C4_decode_failure_counterexample :
    (handleOpampMessage emptyDb [] reqBadBody).1.status = 500
    ∧ ¬ (handleOpampMessage emptyDb [] reqBadBody).1.status = 400 := by
  decide

/-- Claim C4 as amended: a request whose Content-Type is not
`application/x-protobuf` is answered 415; a protobuf-typed request whose
body fails to decode is answered 500 (the decode error is caught by the
generic handler), not 400. -/
theorem claim_C4_content_type_and_decode (db : Db) (reg : AgentRegistry)
    (req : OpampRequest) :
    (¬ req.contentType = "application/x-protobuf" →
      (handleOpampMessage db reg req).1.status = 415)
    ∧ (req.contentType = "application/x-protobuf" →
        req.decoded = Except.error () →
        (handleOpampMessage db reg req).1.status = 500) := by
  constructor
  · intro h
    have hb : (req.contentType == "application/x-protobuf") = false := by
      cases hb2 : req.contentType == "application/x-protobuf"
      · rfl
      · exact absurd (eq_of_beq hb2) h
    simp [handleOpampMessage, hb]
  · intro h1 h2
    simp [handleOpampMessage, h1, h2]

/-- Witness for C4's amended theorem: 415 on a JSON request, 500 on an
undecodable protobuf body. -/
theorem claim_C4_content_type_and_decode_witness :
    (handleOpampMessage emptyDb [] reqJson).1.status = 415
    ∧ (handleOpampMessage emptyDb [] reqBadBody).1.status = 500 :=
  ⟨(claim_C4_content_type_and_decode emptyDb [] reqJson).1 (by decide),
    (claim_C4_content_type_and_decode emptyDb [] reqBadBody).2 rfl rfl⟩

/-- Claim C8 (nop safety): when no active token sits on the shard, or the
selected team's managed connection has no readable (truthy) password, the
synthesizer emits the nop config — no `clickhouse` exporter, and at least
one pipeline for each of the logs, traces and metrics signals. -/
theorem claim_C8_nop_safety (db : Db) (shardId : String)
    (h : (∀ t ∈ db.tokens, t.status = TokenStatus.active →
          ¬ t.assignedShard = some shardId)
      ∨ ∃ teamId, selectedTeamOnShard db shardId = some teamId
          ∧ optTruthy (managedConnectionPassword db teamId) = false) :
    buildShardCollectorConfig db shardId = nopCollectorConfig
    ∧ (buildShardCollectorConfig db shardId).clickhouse = none
    ∧ hasPipelineForSignal (buildShardCollectorConfig db shardId) "logs" = true
    ∧ hasPipelineForSignal (buildShardCollectorConfig db shardId) "traces" = true
    ∧ hasPipelineForSignal (buildShardCollectorConfig db shardId) "metrics" = true := by
  have hnop : buildShardCollectorConfig db shardId = nopCollectorConfig := by
    rcases h with hl | ⟨teamId, hsel, hpw⟩
    · have hfilter : db.tokens.filter
          (fun t => t.status == TokenStatus.active
            && t.assignedShard == some shardId) = [] := by
        rw [List.filter_eq_nil_iff]
        intro t ht hcontra
        have hc := (Bool.and_eq_true _ _).mp hcontra
        exact hl t ht (eq_of_beq hc.1) (eq_of_beq hc.2)
      have hselnone : selectedTeamOnShard db shardId = none := by
        rw [selectedTeamOnShard, hfilter]
        rfl
      rw [buildShardCollectorConfig, hselnone]
    · rw [buildShardCollectorConfig, hsel]
      cases hm : managedConnectionPassword db teamId with
      | none => simp [hm]
      | some pw =>
          rw [hm] at hpw
          have hempty : (pw == "") = true := by
            cases hb : pw == ""
            · rw [optTruthy, hb] at hpw
              cases hpw
            · rfl
          simp [hm, eq_of_beq hempty]
  refine ⟨hnop, ?_, ?_, ?_, ?_⟩ <;> rw [hnop] <;> decide

/-- Claim C9: when token ids are unique and every active token of the
team carries the rotated id (the rotated token is the team's only active
one), the rotated-in replacement's shard is exactly what the allocator
returns against the post-revoke snapshot — not an inherited copy of the
old shard — so rotation can move the team to a free lower-index shard. -/
theorem claim_C9_rotate_uses_allocator (shardCount : Nat)
    (token freshId : String) (now : Nat) (db : Db) (teamId tokId s : String)
    (hnodup : (db.tokens.map (fun t => t.id)).Nodup)
    (honly : ∀ t ∈ db.tokens, isActiveTeamToken teamId t = true → t.id = tokId)
    (hfresh : ∀ t ∈ db.tokens, ¬ t.tokenHash = hashIngestionToken token)
    (halloc : findNextAvailableShard shardCount none
        ((revokeIngestionToken now db teamId tokId).2).tokens = some s) :
    ∃ rec db2,
      rotateIngestionToken shardCount token freshId now db teamId tokId
        = Except.ok (token, rec, db2)
      ∧ rec.assignedShard = some s := by
  have hmatch : ∀ t ∈ db.tokens, isActiveTeamToken teamId t = true →
      revokeMatches teamId tokId t = true := by
    intro t ht hp
    have hid : t.id = tokId := honly t ht hp
    have hteam : (t.team == teamId) = true :=
      ((Bool.and_eq_true _ _).mp hp).1
    rw [revokeMatches, Bool.and_eq_true]
    exact ⟨beq_iff_eq.mpr hid, hteam⟩
  have hanyOf : ∀ l : List IngestionToken,
      (∀ t ∈ l, ¬ t.tokenHash = hashIngestionToken token) →
      l.any (fun t => t.tokenHash == hashIngestionToken token) = false := by
    intro l hl2
    rw [List.any_eq_false]
    intro t ht
    simp [beq_false_of_ne (hl2 t ht)]
  rcases updateFirst_spec (revokeMatches teamId tokId) (setRevokedAt now)
      db.tokens with ⟨hf, hu⟩ | ⟨l1, x, l2, hl, hl1, hx, hf, hu⟩
  · have hdb1tok : ((revokeIngestionToken now db teamId tokId).2).tokens
        = db.tokens := by
      simp [revokeIngestionToken, hf]
    have hnoact : ((revokeIngestionToken now db teamId tokId).2).tokens.find?
        (isActiveTeamToken teamId) = none := by
      rw [hdb1tok, List.find?_eq_none]
      intro t ht hp
      exact absurd (hmatch t ht hp) (List.find?_eq_none.mp hf t ht)
    have hany : ((revokeIngestionToken now db teamId tokId).2).tokens.any
        (fun t => t.tokenHash == hashIngestionToken token) = false := by
      rw [hdb1tok]
      exact hanyOf db.tokens hfresh
    have hunfold : rotateIngestionToken shardCount token freshId now db teamId tokId
        = createIngestionToken shardCount token freshId now
            ((revokeIngestionToken now db teamId tokId).2)
            { teamId := teamId, description := none, assignedShard := none } := rfl
    exact ⟨_, _, hunfold.trans (create_after_no_active shardCount token freshId now
      ((revokeIngestionToken now db teamId tokId).2) teamId s hnoact hany halloc), rfl⟩
  · have hxid : x.id = tokId :=
      eq_of_beq ((Bool.and_eq_true _ _).mp hx).1
    have hdb1tok : ((revokeIngestionToken now db teamId tokId).2).tokens
        = l1 ++ setRevokedAt now x :: l2 := by
      simp [revokeIngestionToken, hf, hu]
    have hnodup2 : ((l1 ++ x :: l2).map (fun t => t.id)).Nodup := hl ▸ hnodup
    have hxnotin : x.id ∉ l2.map (fun t => t.id) := by
      rw [List.map_append, List.map_cons] at hnodup2
      exact (List.nodup_cons.mp (List.nodup_append.mp hnodup2).2.1).1
    have hnoact : ((revokeIngestionToken now db teamId tokId).2).tokens.find?
        (isActiveTeamToken teamId) = none := by
      rw [hdb1tok, List.find?_eq_none]
      intro t ht hp
      rcases List.mem_append.mp ht with h1 | h2
      · have hmem : t ∈ db.tokens := by
          rw [hl]
          exact List.mem_append_left _ h1
        exact absurd (hmatch t hmem hp) (hl1 t h1)
      · rcases List.mem_cons.mp h2 with rfl | h3
        · have hst := ((Bool.and_eq_true _ _).mp hp).2
          have : TokenStatus.revoked = TokenStatus.active := eq_of_beq hst
          cases this
        · have hmem : t ∈ db.tokens := by
            rw [hl]
            exact List.mem_append_right _ (List.mem_cons_of_mem _ h3)
          have hid : t.id = tokId := honly t hmem hp
          apply hxnotin
          rw [hxid, ← hid]
          exact List.mem_map_of_mem _ h3
    have hany : ((revokeIngestionToken now db teamId tokId).2).tokens.any
        (fun t => t.tokenHash == hashIngestionToken token) = false := by
      rw [hdb1tok]
      apply hanyOf
      intro t ht
      rcases List.mem_append.mp ht with h1 | h2
      · exact hfresh t (by rw [hl]; exact List.mem_append_left _ h1)
      · rcases List.mem_cons.mp h2 with rfl | h3
        · have hxmem : x ∈ db.tokens := by
            rw [hl]
            exact List.mem_append_right _ (List.mem_cons_self _ _)
          exact hfresh x hxmem
        · exact hfresh t
            (by rw [hl]; exact List.mem_append_right _ (List.mem_cons_of_mem _ h3))
    have hunfold : rotateIngestionToken shardCount token freshId now db teamId tokId
        = createIngestionToken shardCount token freshId now
            ((revokeIngestionToken now db teamId tokId).2)
            { teamId := teamId, description := none, assignedShard := none } := rfl
    exact ⟨_, _, hunfold.trans (create_after_no_active shardCount token freshId now
      ((revokeIngestionToken now db teamId tokId).2) teamId s hnoact hany halloc), rfl⟩

/-- Witness for C9: team `t1`'s only active token sits on `shard-1`;
rotating it frees `shard-1` and the allocator hands the replacement
`shard-0`, the lowest free index — the team moves shard. -/
theorem claim_C9_rotate_uses_allocator_witness :
    tokA.assignedShard = some "shard-1"
    ∧ ∃ rec db2,
        rotateIngestionToken 2 "tok-b" "B" 9 dbA "t1" "A"
          = Except.ok ("tok-b", rec, db2)
        ∧ rec.assignedShard = some "shard-0" :=
  ⟨rfl,
    claim_C9_rotate_uses_allocator 2 "tok-b" "B" 9 dbA "t1" "A" "shard-0"
      (by decide) (by decide) (by decide) (by decide)⟩

/-- Witness for C8: a shard with no tokens at all gets the nop config. -/
theorem claim_C8_nop_safety_witness :
    buildShardCollectorConfig emptyDb "shard-0" = nopCollectorConfig
    ∧ (buildShardCollectorConfig emptyDb "shard-0").clickhouse = none
    ∧ hasPipelineForSignal (buildShardCollectorConfig emptyDb "shard-0") "logs" = true
    ∧ hasPipelineForSignal (buildShardCollectorConfig emptyDb "shard-0") "traces" = true
    ∧ hasPipelineForSignal (buildShardCollectorConfig emptyDb "shard-0") "metrics" = true :=
  claim_C8_nop_safety emptyDb "shard-0" (Or.inl (by decide))

end TfApp
